import Mathlib

/-!
Verification of the streaming chat transport of the SmartWealth web client
(`src/frontend/src/components/Chat.tsx`, streaming variant).

The development shallowly embeds the client side of the chat pipeline:

* a JSON value model together with an executable parser standing for
  `JSON.parse` (a parse failure models the thrown exception);
* a streaming-safe UTF-8 byte decoder standing for `TextDecoder`;
* the frame reader of `send` (carry-over `buffer`, frames separated by a
  blank line, i.e. the byte pair 10,10);
* the per-frame event decoder (`data:` payload line extraction, JSON
  parse, discriminant dispatch into delta / result / error / end);
* the conversation reducer of `send` (placeholder creation, delta
  accumulation via `streamingText`, result finalisation with re-keying and
  latency attachment, error substitution);
* `submitFeedback` and the entry guard of `send`.

Modelling conventions, stated once:
* JS timestamps (`performance.now()`) are natural numbers of milliseconds;
  `Math.max(0, endedAt - startedAt)` coincides with truncated `Nat`
  subtraction.
* The JS distinction between `undefined` and `null` fields is collapsed to
  `Option.none`: the source only ever observes these fields through
  truthiness or the nullish-coalescing operator, which identify the two.
* `messageId` and `reply` are read from the result payload as the source
  reads them: a non-empty JSON string passes the truthiness / `typeof`
  guard, anything else falls through to the fallback.  (The wire format of
  the backend types both fields as strings.)
* Frames are split on the byte level at the pair 10,10; since the byte 10
  never occurs inside a multi-byte UTF-8 sequence, this is observationally
  the same as the source's decode-then-split order, and each complete
  frame is decoded by the UTF-8 decoder below.
-/

namespace SmartWealth

/-! ### JSON values and `JSON.parse` -/

/-- JSON values as produced by `JSON.parse`.  Numbers keep their source
lexeme, which is enough because the chat client never computes with
payload numbers. -/
inductive Json where
  | null
  | bool (b : Bool)
  | num (raw : String)
  | str (s : String)
  | arr (elems : List Json)
  | obj (fields : List (String × Json))

/-- Field lookup in a JSON object literal; as in `JSON.parse`, a later
duplicate key wins. -/
def lookupLast : List (String × Json) → String → Option Json
  | [], _ => none
  | (k, v) :: rest, key =>
    match lookupLast rest key with
    | some r => some r
    | none => if k = key then some v else none

/-- Property access `payload.key` on a parsed JSON value: `none` models the
JS value `undefined` (also obtained when the receiver is not an object). -/
def jlookup : Json → String → Option Json
  | Json.obj fields, key => lookupLast fields key
  | _, _ => none

/-- JSON whitespace accepted by `JSON.parse` between tokens. -/
def isJsonWs (c : Char) : Bool :=
  c = ' ' || c = '\t' || c = '\n' || c = '\r'

/-- Drop leading JSON whitespace. -/
def skipWs (cs : List Char) : List Char := cs.dropWhile isJsonWs

/-- Value of a hexadecimal digit. -/
def hexVal (c : Char) : Option Nat :=
  if '0' ≤ c ∧ c ≤ '9' then some (c.toNat - '0'.toNat)
  else if 'a' ≤ c ∧ c ≤ 'f' then some (c.toNat - 'a'.toNat + 10)
  else if 'A' ≤ c ∧ c ≤ 'F' then some (c.toNat - 'A'.toNat + 10)
  else none

/-- Body of a JSON string literal, after the opening quote; implements the
escape sequences of the JSON grammar.  A lone `\uXXXX` escape becomes the
scalar value `XXXX` (surrogate pairs are not recombined; no payload in
this development uses them).  Raw control characters are rejected, as by
`JSON.parse`. -/
def parseStringBody : List Char → List Char → Option (String × List Char)
  | acc, '"' :: rest => some (String.mk acc.reverse, rest)
  | acc, '\\' :: 'u' :: h1 :: h2 :: h3 :: h4 :: rest =>
    (match hexVal h1, hexVal h2, hexVal h3, hexVal h4 with
     | some a, some b, some c, some d =>
       parseStringBody (Char.ofNat (((a * 16 + b) * 16 + c) * 16 + d) :: acc) rest
     | _, _, _, _ => none)
  | acc, '\\' :: e :: rest =>
    (match e with
     | '"' => parseStringBody ('"' :: acc) rest
     | '\\' => parseStringBody ('\\' :: acc) rest
     | '/' => parseStringBody ('/' :: acc) rest
     | 'b' => parseStringBody (Char.ofNat 8 :: acc) rest
     | 'f' => parseStringBody (Char.ofNat 12 :: acc) rest
     | 'n' => parseStringBody ('\n' :: acc) rest
     | 'r' => parseStringBody ('\r' :: acc) rest
     | 't' => parseStringBody ('\t' :: acc) rest
     | _ => none)
  | acc, c :: rest =>
    if c.toNat < 32 then none else parseStringBody (c :: acc) rest
  | _, [] => none

/-- Split a run of decimal digits off the front. -/
def takeDigits (cs : List Char) : List Char × List Char :=
  (cs.takeWhile Char.isDigit, cs.dropWhile Char.isDigit)

/-- Integer part of a JSON number: `0` or a nonzero digit followed by
digits. -/
def parseIntPart : List Char → Option (List Char × List Char)
  | '0' :: rest => some (['0'], rest)
  | c :: rest =>
    if c.isDigit then
      let p := takeDigits rest
      some (c :: p.1, p.2)
    else none
  | [] => none

/-- Optional fractional part of a JSON number. -/
def parseFracPart : List Char → Option (List Char × List Char)
  | '.' :: rest =>
    let p := takeDigits rest
    if p.1.isEmpty then none else some ('.' :: p.1, p.2)
  | cs => some ([], cs)

/-- Optional exponent part of a JSON number. -/
def parseExpPart : List Char → Option (List Char × List Char)
  | e :: rest =>
    if e = 'e' ∨ e = 'E' then
      match rest with
      | s :: rest2 =>
        if s = '+' ∨ s = '-' then
          let p := takeDigits rest2
          if p.1.isEmpty then none else some (e :: s :: p.1, p.2)
        else
          let p := takeDigits rest
          if p.1.isEmpty then none else some (e :: p.1, p.2)
      | [] => none
    else some ([], e :: rest)
  | [] => some ([], [])

/-- Lexeme of a JSON number. -/
def parseNumberLex (cs : List Char) : Option (String × List Char) :=
  let sp : List Char × List Char :=
    match cs with
    | '-' :: rest => (['-'], rest)
    | _ => ([], cs)
  match parseIntPart sp.2 with
  | none => none
  | some (ip, cs2) =>
    match parseFracPart cs2 with
    | none => none
    | some (fp, cs3) =>
      match parseExpPart cs3 with
      | none => none
      | some (ep, cs4) => some (String.mk (sp.1 ++ ip ++ fp ++ ep), cs4)

/-- The opening curly brace character. -/
def lbrace : Char := Char.ofNat 123

/-- The closing curly brace character. -/
def rbrace : Char := Char.ofNat 125

mutual

/-- Fuelled recursive-descent parser for a JSON value, mirroring the
grammar accepted by `JSON.parse`. -/
def parseValueF : Nat → List Char → Option (Json × List Char)
  | 0, _ => none
  | fuel + 1, cs =>
    match skipWs cs with
    | 'n' :: 'u' :: 'l' :: 'l' :: rest => some (Json.null, rest)
    | 't' :: 'r' :: 'u' :: 'e' :: rest => some (Json.bool true, rest)
    | 'f' :: 'a' :: 'l' :: 's' :: 'e' :: rest => some (Json.bool false, rest)
    | '"' :: rest => (parseStringBody [] rest).map fun p => (Json.str p.1, p.2)
    | '[' :: rest =>
      (match skipWs rest with
       | ']' :: rest2 => some (Json.arr [], rest2)
       | cs2 => (parseElemsF fuel cs2).map fun p => (Json.arr p.1, p.2))
    | c :: rest =>
      if c = lbrace then
        match skipWs rest with
        | c2 :: rest2 =>
          if c2 = rbrace then some (Json.obj [], rest2)
          else (parseFieldsF fuel (c2 :: rest2)).map fun p => (Json.obj p.1, p.2)
        | [] => none
      else (parseNumberLex (c :: rest)).map fun p => (Json.num p.1, p.2)
    | [] => none

/-- Fuelled parser for the elements of a non-empty JSON array, up to and
including the closing bracket. -/
def parseElemsF : Nat → List Char → Option (List Json × List Char)
  | 0, _ => none
  | fuel + 1, cs =>
    match parseValueF fuel cs with
    | none => none
    | some (v, rest) =>
      match skipWs rest with
      | ',' :: rest2 => (parseElemsF fuel rest2).map fun p => (v :: p.1, p.2)
      | ']' :: rest2 => some ([v], rest2)
      | _ => none

/-- Fuelled parser for the fields of a non-empty JSON object, up to and
including the closing brace. -/
def parseFieldsF : Nat → List Char → Option (List (String × Json) × List Char)
  | 0, _ => none
  | fuel + 1, cs =>
    match skipWs cs with
    | '"' :: rest =>
      (match parseStringBody [] rest with
       | none => none
       | some (k, rest2) =>
         match skipWs rest2 with
         | ':' :: rest3 =>
           (match parseValueF fuel rest3 with
            | none => none
            | some (v, rest4) =>
              match skipWs rest4 with
              | ',' :: rest5 => (parseFieldsF fuel rest5).map fun p => ((k, v) :: p.1, p.2)
              | c :: rest5 =>
                if c = rbrace then some ([(k, v)], rest5) else none
              | [] => none)
         | _ => none)
    | _ => none

end

/-- Embedding of `JSON.parse`: `none` models a thrown `SyntaxError`.  The
fuel bounds the nesting depth by the input length, which is always
sufficient. -/
def parseJson (s : String) : Option Json :=
  match parseValueF (2 * s.length + 2) s.data with
  | some (j, rest) => if (skipWs rest).isEmpty then some j else none
  | none => none

/-! ### Streaming UTF-8 byte decoding (`TextDecoder`) -/

/-- The Unicode replacement character emitted by `TextDecoder` for
malformed input. -/
def replChar : Char := Char.ofNat 0xFFFD

/-- Whether a byte is a UTF-8 continuation byte. -/
def isCont (b : Nat) : Bool := 0x80 ≤ b && b ≤ 0xBF

/-- Range check for the second byte of a three-byte sequence (excludes
overlong encodings and surrogates, as `TextDecoder` does). -/
def cont3ok (b1 b2 : Nat) : Bool :=
  if b1 = 0xE0 then 0xA0 ≤ b2 && b2 ≤ 0xBF
  else if b1 = 0xED then 0x80 ≤ b2 && b2 ≤ 0x9F
  else isCont b2

/-- Range check for the second byte of a four-byte sequence. -/
def cont4ok (b1 b2 : Nat) : Bool :=
  if b1 = 0xF0 then 0x90 ≤ b2 && b2 ≤ 0xBF
  else if b1 = 0xF4 then 0x80 ≤ b2 && b2 ≤ 0x8F
  else isCont b2

/-- Fuelled UTF-8 decoding of a byte list; each step consumes at least one
byte, so fuel `length + 1` decodes everything.  Malformed sequences yield
the replacement character and resume at the next byte. -/
def utf8DecodeAux : Nat → List Nat → List Char
  | 0, _ => []
  | _ + 1, [] => []
  | fuel + 1, b1 :: rest =>
    if b1 < 0x80 then Char.ofNat b1 :: utf8DecodeAux fuel rest
    else if 0xC2 ≤ b1 && b1 ≤ 0xDF then
      match rest with
      | b2 :: rest2 =>
        if isCont b2 then
          Char.ofNat ((b1 - 0xC0) * 0x40 + (b2 - 0x80)) :: utf8DecodeAux fuel rest2
        else replChar :: utf8DecodeAux fuel rest
      | [] => [replChar]
    else if 0xE0 ≤ b1 && b1 ≤ 0xEF then
      match rest with
      | b2 :: b3 :: rest3 =>
        if cont3ok b1 b2 && isCont b3 then
          Char.ofNat (((b1 - 0xE0) * 0x40 + (b2 - 0x80)) * 0x40 + (b3 - 0x80))
            :: utf8DecodeAux fuel rest3
        else replChar :: utf8DecodeAux fuel rest
      | _ => replChar :: utf8DecodeAux fuel rest
    else if 0xF0 ≤ b1 && b1 ≤ 0xF4 then
      match rest with
      | b2 :: b3 :: b4 :: rest4 =>
        if cont4ok b1 b2 && isCont b3 && isCont b4 then
          Char.ofNat ((((b1 - 0xF0) * 0x40 + (b2 - 0x80)) * 0x40 + (b3 - 0x80)) * 0x40
              + (b4 - 0x80))
            :: utf8DecodeAux fuel rest4
        else replChar :: utf8DecodeAux fuel rest
      | _ => replChar :: utf8DecodeAux fuel rest
    else replChar :: utf8DecodeAux fuel rest

/-- Decode a complete byte sequence as UTF-8 text. -/
def utf8Decode (bs : List Nat) : String :=
  String.mk (utf8DecodeAux (bs.length + 1) bs)

/-! ### Frame reader

The source keeps a carry-over string `buffer`; after appending each chunk
it repeatedly slices off the part before the first occurrence of a blank
line (`indexOf` of two consecutive newlines) as one raw frame.  On the
byte level this is a greedy leftmost split at the byte pair 10,10. -/

/-- Split a byte sequence at every (leftmost-first) occurrence of the pair
10,10; returns the complete frames and the unterminated remainder. -/
def splitFrames : List Nat → List (List Nat) × List Nat
  | [] => ([], [])
  | [b] => ([], [b])
  | b1 :: b2 :: rest =>
    if b1 = 10 ∧ b2 = 10 then
      let p := splitFrames rest
      ([] :: p.1, p.2)
    else
      match splitFrames (b2 :: rest) with
      | (f :: fs, r) => ((b1 :: f) :: fs, r)
      | ([], r) => ([], b1 :: r)

/-- The read loop of `send`: feed each chunk into the carry-over buffer and
emit the frames that have become complete; at end of input the remaining
buffer is discarded (the loop breaks on `done`). -/
def pump : List Nat → List (List Nat) → List (List Nat)
  | _, [] => []
  | buf, c :: cs =>
    let p := splitFrames (buf ++ c)
    p.1 ++ pump p.2 cs

/-! ### Event decoding -/

/-- Decoded stream events: the discriminated union carried by the `data:`
payload of each frame. -/
inductive StreamEvent where
  | delta (text : String)
  | result (data : Json)
  | errorEv (err : Option Json)
  | endEv

/-- Whitespace removed by the JS `String.prototype.trim` used on the
payload (`dataLine.slice(5).trim()`). -/
def isJsWs (c : Char) : Bool :=
  c.toNat = 9 || c.toNat = 10 || c.toNat = 11 || c.toNat = 12 || c.toNat = 13 ||
  c.toNat = 32 || c.toNat = 160 || c.toNat = 0x1680 ||
  (0x2000 ≤ c.toNat && c.toNat ≤ 0x200A) ||
  c.toNat = 0x2028 || c.toNat = 0x2029 || c.toNat = 0x202F ||
  c.toNat = 0x205F || c.toNat = 0x3000 || c.toNat = 0xFEFF

/-- Embedding of JS `trim`. -/
def jsTrim (s : String) : String :=
  String.mk (((s.data.dropWhile isJsWs).reverse.dropWhile isJsWs).reverse)

/-- The nullish-coalescing operator `x ?? d` applied to a possibly absent
JSON field. -/
def nullishDefault (o : Option Json) (d : Json) : Json :=
  match o with
  | some Json.null => d
  | some j => j
  | none => d

/-- Embedding of the JS `rawEvent.split('\n')`: split into lines at every
newline, keeping empty pieces. -/
def splitLinesAux : List Char → List Char → List String
  | acc, [] => [String.mk acc.reverse]
  | acc, c :: rest =>
    if c = '\n' then String.mk acc.reverse :: splitLinesAux [] rest
    else splitLinesAux (c :: acc) rest

/-- Lines of a raw frame string. -/
def splitLines (s : String) : List String := splitLinesAux [] s.data

/-- Embedding of the JS `line.startsWith(pre)`. -/
def beginsWith : List Char → List Char → Bool
  | [], _ => true
  | _ :: _, [] => false
  | p :: ps, c :: cs => p = c && beginsWith ps cs

/-- Embedding of the JS `line.slice(n)` for the ASCII prefixes used
here. -/
def sliceFrom (s : String) (n : Nat) : String := String.mk (s.data.drop n)

/-- Per-frame event decoding, mirroring the body of the frame loop in
`send`: split the raw event into lines, find the first line starting with
`data:`, trim the rest of that line, parse it as JSON and dispatch on the
`type` discriminant.  `none` covers every skip case: no payload line,
empty payload, malformed JSON, wrong discriminant, or a `delta` whose
`delta` field is not a string. -/
def decodeFrame (rawEvent : String) : Option StreamEvent :=
  match (splitLines rawEvent).find? (fun l => beginsWith ("data:".data) l.data) with
  | none => none
  | some dataLine =>
    let jsonPayload := jsTrim (sliceFrom dataLine 5)
    if jsonPayload = "" then none
    else
      match parseJson jsonPayload with
      | none => none
      | some payload =>
        match jlookup payload "type" with
        | some (Json.str "delta") =>
          (match jlookup payload "delta" with
           | some (Json.str d) => some (StreamEvent.delta d)
           | _ => none)
        | some (Json.str "result") =>
          some (StreamEvent.result (nullishDefault (jlookup payload "data") (Json.obj [])))
        | some (Json.str "error") => some (StreamEvent.errorEv (jlookup payload "error"))
        | some (Json.str "end") => some StreamEvent.endEv
        | _ => none

/-- Decode one complete frame delivered as bytes. -/
def decodeFrameBytes (frame : List Nat) : Option StreamEvent :=
  decodeFrame (utf8Decode frame)

/-- The events actually dispatched by the frame loop: undecodable frames
are skipped (`continue`), and the `end` event terminates the loop
(`finished = true; break`), so nothing after it is dispatched. -/
def eventsRun : List (Option StreamEvent) → List StreamEvent
  | [] => []
  | none :: rest => eventsRun rest
  | some StreamEvent.endEv :: _ => [StreamEvent.endEv]
  | some e :: rest => e :: eventsRun rest

/-- Event sequence decoded from raw frame strings. -/
def frameEventsStr (frames : List String) : List StreamEvent :=
  eventsRun (frames.map decodeFrame)

/-- Event sequence decoded from a chunked byte stream: the full
FrameReader plus EventDecoder pipeline of `send`. -/
def streamEventsOf (chunks : List (List Nat)) : List StreamEvent :=
  eventsRun ((pump [] chunks).map decodeFrameBytes)

/-! ### Conversation data model -/

/-- Rating carried by the feedback buttons. -/
inductive Feedback where
  | up
  | down
deriving DecidableEq

/-- The `AssistantMsg` record of the source.  Fields that hold opaque
payload fragments (table, chart, plan, ...) are kept as raw JSON values;
`none` stands for the JS `undefined` / `null` (see the header). -/
structure AssistantMsg where
  id : Option String := none
  text : String := ""
  table : Option Json := none
  chart : Option Json := none
  sql : Option Json := none
  latencyMs : Option Nat := none
  prompt : Option String := none
  feedback : Option Feedback := none
  plan : Option Json := none
  followups : Option Json := none
  tablePreview : Option Json := none
  sourceLabel : Option Json := none
  dataSource : Option Json := none
  llmSource : Option Json := none
  llmSourceRaw : Option Json := none
  searchProvider : Option Json := none

/-- A conversation entry: the `Msg` union of the source. -/
inductive Msg where
  | user (text : String)
  | assistant (a : AssistantMsg)

/-- The reducer pattern shared by every `setMessages` call of the stream
loop: map over the list and update exactly the assistant entries whose id
equals the target (`isAssistant(entry) && entry.id === target`). -/
def updateById (msgs : List Msg) (targetId : String) (f : AssistantMsg → AssistantMsg) :
    List Msg :=
  msgs.map fun m =>
    match m with
    | Msg.assistant a => if a.id = some targetId then Msg.assistant (f a) else m
    | Msg.user _ => m

/-- Whether some assistant entry carries the given id. -/
def hasAssistantId (msgs : List Msg) (targetId : String) : Bool :=
  msgs.any fun m =>
    match m with
    | Msg.assistant a => decide (a.id = some targetId)
    | Msg.user _ => false

/-! ### The `send` entry guard and placeholder creation -/

/-- The component state of `Chat` that `send` reads and writes (messages,
the input box, and the `isLoading` flag that is true exactly while a
stream is open). -/
structure ChatState where
  messages : List Msg
  input : String
  isLoading : Bool

/-- A streaming request that `send` has actually issued. -/
structure StartedRequest where
  assistantId : String
  promptText : String

/-- The placeholder `AssistantMsg` pushed by `send` alongside the user
message: empty text, the locally generated id, and `prompt` set to the
sent text; every other field empty. -/
def placeholderMsg (assistantId promptText : String) : AssistantMsg :=
  { id := some assistantId, text := "", prompt := some promptText }

/-- The synchronous head of `send` (lines up to the `fetch`): trim the
argument (or the input box), return unchanged doing nothing when the text
is empty or a stream is already open (`if (!text || isLoading) return`);
otherwise clear the input, set `isLoading`, append the user message and
the placeholder, and report the started request.  `newId` stands for the
value of `createMessageId()`.  A `none` second component means no network
request is issued. -/
def sendStart (st : ChatState) (messageOverride : Option String) (newId : String) :
    ChatState × Option StartedRequest :=
  let text := jsTrim (messageOverride.getD st.input)
  if text = "" ∨ st.isLoading then (st, none)
  else
    ({ messages := st.messages ++ [Msg.user text, Msg.assistant (placeholderMsg newId text)],
       input := "",
       isLoading := true },
     some { assistantId := newId, promptText := text })

/-! ### The stream loop state and event application -/

/-- The local mutable state of one streaming request inside `send`:
the conversation, the accumulated `streamingText`, the
`currentAssistantId` (local id until superseded by a result), and the
`finished` flag set by the `end` event. -/
structure StreamState where
  messages : List Msg
  streamingText : String
  currentAssistantId : String
  finished : Bool

/-- Stream state at the start of the read loop. -/
def initStream (msgs : List Msg) (assistantId : String) : StreamState :=
  { messages := msgs, streamingText := "", currentAssistantId := assistantId,
    finished := false }

/-- Read a string-typed field of the result payload the way the source
does: `messageId` through the truthiness of `(data.messageId as string)`
and `reply` through `typeof data.reply === 'string' && data.reply.length`.
In both cases exactly the non-empty JSON strings pass. -/
def dataStringField (d : Json) (key : String) : Option String :=
  match jlookup d key with
  | some (Json.str s) => if s = "" then none else some s
  | _ => none

/-- Read an opaque field of the result payload (`data.table`, `data.plan
?? null`, ...); JSON `null` collapses to `none` (see the header). -/
def dataField (d : Json) (key : String) : Option Json :=
  match jlookup d key with
  | some Json.null => none
  | some j => some j
  | none => none

/-- Fallback reply used when the payload supplies none and no delta text
accumulated. -/
def fallbackReply : String := "I could not craft a response for that."

/-- The `delta` branch of the frame loop (`appendDelta`): extend
`streamingText` and write it into every assistant entry matching the
current assistant id. -/
def applyDelta (st : StreamState) (d : String) : StreamState :=
  let s := st.streamingText ++ d
  { st with
    streamingText := s,
    messages := updateById st.messages st.currentAssistantId fun a => { a with text := s } }

/-- The `result` branch of the frame loop: compute the latency
(`Math.max(0, endedAt - startedAt)`), re-key the current assistant id to
`data.messageId` when that is truthy, choose the final text (`reply` when
a non-empty string, else the accumulated text, else the fallback), and
overwrite the fields of the assistant entries matching the original
placeholder id. -/
def applyResult (assistantId : String) (startedAt : Nat) (st : StreamState) (data : Json)
    (now : Nat) : StreamState :=
  let latency := now - startedAt
  let cid := (dataStringField data "messageId").getD st.currentAssistantId
  let finalText :=
    (dataStringField data "reply").getD
      (if st.streamingText = "" then fallbackReply else st.streamingText)
  { st with
    currentAssistantId := cid,
    messages :=
      updateById st.messages assistantId fun a =>
        { a with
          id := some cid,
          text := finalText,
          table := dataField data "table",
          chart := dataField data "chart",
          sql := dataField data "sql",
          latencyMs := some latency,
          plan := dataField data "plan",
          followups := dataField data "followups",
          tablePreview := dataField data "tablePreview",
          sourceLabel := dataField data "sourceLabel",
          dataSource := dataField data "data_source",
          llmSource := dataField data "llmSource",
          llmSourceRaw := dataField data "llmSourceRaw",
          searchProvider := dataField data "search_provider" } }

/-- Truthiness of a JSON value under the JS boolean coercion used by
`payload.error || 'Error reaching API.'`. -/
def jsTruthy : Json → Bool
  | Json.null => false
  | Json.bool b => b
  | Json.str s => decide (s ≠ "")
  | Json.num raw => ((raw.data.takeWhile fun c => c ≠ 'e' ∧ c ≠ 'E').filter
      Char.isDigit).any fun c => c ≠ '0'
  | Json.arr _ => true
  | Json.obj _ => true

/-- Rendering of the (in practice always string-valued) error payload into
the text field. -/
def jsonToText : Json → String
  | Json.str s => s
  | Json.num raw => raw
  | Json.bool b => if b then "true" else "false"
  | _ => ""

/-- The `error` branch of the frame loop: set the text of the assistant
entries matching the original placeholder id to the error payload (or the
fixed fallback when that is falsy), leaving every other field alone. -/
def applyError (assistantId : String) (st : StreamState) (err : Option Json) : StreamState :=
  let msg :=
    match err with
    | some j => if jsTruthy j then jsonToText j else "Error reaching API."
    | none => "Error reaching API."
  { st with
    messages := updateById st.messages assistantId fun a => { a with text := msg } }

/-- Dispatch of one decoded event, mirroring the if/else chain of the
frame loop; `now` is the clock value when the event is processed. -/
def applyEvent (assistantId : String) (startedAt : Nat) (st : StreamState)
    (ev : StreamEvent) (now : Nat) : StreamState :=
  match ev with
  | StreamEvent.delta d => applyDelta st d
  | StreamEvent.result data => applyResult assistantId startedAt st data now
  | StreamEvent.errorEv e => applyError assistantId st e
  | StreamEvent.endEv => { st with finished := true }

/-- Run the frame loop over a timestamped event sequence: once `finished`
is set, the loop has exited and later events have no effect. -/
def runEvents (assistantId : String) (startedAt : Nat) :
    StreamState → List (StreamEvent × Nat) → StreamState
  | st, [] => st
  | st, (ev, now) :: rest =>
    if st.finished then st
    else runEvents assistantId startedAt (applyEvent assistantId startedAt st ev now) rest

/-! ### Feedback submission -/

/-- Embedding of `submitFeedback`: the guards (`!msg.id`, same rating
already recorded), then the POST; the conversation is updated with the
rating only when the POST succeeds (`postSucceeds`), while on failure the
error is only logged and the conversation is returned untouched.  The
transient `feedbackLoading` spinner bookkeeping (set in the first line and
deleted in `finally`) nets to no change and is not part of the
conversation state. -/
def submitFeedback (postSucceeds : Bool) (msg : AssistantMsg) (rating : Feedback)
    (messages : List Msg) : List Msg :=
  match msg.id with
  | none => messages
  | some mid =>
    if mid = "" then messages
    else if msg.feedback = some rating then messages
    else if postSucceeds then
      updateById messages mid fun a => { a with feedback := some rating }
    else messages

/-! ### Observation helpers used in the theorem statements -/

/-- Text of the last (open) message of a conversation. -/
def openText (msgs : List Msg) : Option String :=
  msgs.getLast?.map fun m =>
    match m with
    | Msg.user t => t
    | Msg.assistant a => a.text

/-- Id of the last (open) message of a conversation, when it is an
assistant message. -/
def openId (msgs : List Msg) : Option String :=
  match msgs.getLast? with
  | some (Msg.assistant a) => a.id
  | _ => none

/-- Latency attached to the last (open) message of a conversation. -/
def openLatency (msgs : List Msg) : Option Nat :=
  match msgs.getLast? with
  | some (Msg.assistant a) => a.latencyMs
  | _ => none

/-- Feedback recorded on the assistant entry with the given id. -/
def feedbackOf (msgs : List Msg) (mid : String) : Option Feedback :=
  match msgs.findSome? fun m =>
    match m with
    | Msg.assistant a => if a.id = some mid then some a.feedback else none
    | Msg.user _ => none with
  | some f => f
  | none => none

/-- Concatenation of a list of strings (the accumulated delta text). -/
def joinStrs : List String → String
  | [] => ""
  | s :: rest => s ++ joinStrs rest

/-- UTF-8 bytes of an ASCII string, used to build concrete byte streams. -/
def asciiBytes (s : String) : List Nat := s.data.map Char.toNat

/-! ### Basic lemmas -/

theorem string_append_empty (s : String) : s ++ "" = s := by
  cases s with
  | mk data =>
    show String.mk (data ++ []) = String.mk data
    rw [List.append_nil]

theorem string_append_assoc (a b c : String) : a ++ b ++ c = a ++ (b ++ c) := by
  cases a with
  | mk x =>
    cases b with
    | mk y =>
      cases c with
      | mk z =>
        show String.mk (x ++ y ++ z) = String.mk (x ++ (y ++ z))
        rw [List.append_assoc]

theorem updateById_append (xs ys : List Msg) (tid : String) (f : AssistantMsg → AssistantMsg) :
    updateById (xs ++ ys) tid f = updateById xs tid f ++ updateById ys tid f := by
  simp [updateById]

theorem hasAssistantId_append (xs ys : List Msg) (tid : String) :
    hasAssistantId (xs ++ ys) tid = (hasAssistantId xs tid || hasAssistantId ys tid) := by
  simp [hasAssistantId]

theorem updateById_not_present (tid : String) (f : AssistantMsg → AssistantMsg) :
    ∀ (msgs : List Msg), hasAssistantId msgs tid = false → updateById msgs tid f = msgs := by
  intro msgs h
  induction msgs with
  | nil => rfl
  | cons m rest ih =>
    simp only [hasAssistantId, List.any_cons, Bool.or_eq_false_iff] at h
    have h2 : hasAssistantId rest tid = false := h.2
    cases m with
    | user t =>
      show Msg.user t :: updateById rest tid f = Msg.user t :: rest
      rw [ih h2]
    | assistant a =>
      have ha : ¬(a.id = some tid) := by simpa using h.1
      show (if a.id = some tid then Msg.assistant (f a) else Msg.assistant a)
          :: updateById rest tid f = Msg.assistant a :: rest
      rw [if_neg ha, ih h2]

theorem openText_concat (xs : List Msg) (a : AssistantMsg) :
    openText (xs ++ [Msg.assistant a]) = some a.text := by
  simp [openText, List.getLast?_concat]

theorem openId_concat (xs : List Msg) (a : AssistantMsg) :
    openId (xs ++ [Msg.assistant a]) = a.id := by
  simp [openId, List.getLast?_concat]

theorem runEvents_finished (aid : String) (t0 : Nat) (st : StreamState)
    (h : st.finished = true) (evs : List (StreamEvent × Nat)) :
    runEvents aid t0 st evs = st := by
  cases evs with
  | nil => rfl
  | cons e rest =>
    cases e with
    | mk ev now => simp [runEvents, h]

theorem runEvents_append (aid : String) (t0 : Nat) (xs ys : List (StreamEvent × Nat)) :
    ∀ st : StreamState,
      runEvents aid t0 st (xs ++ ys) = runEvents aid t0 (runEvents aid t0 st xs) ys := by
  induction xs with
  | nil => intro st; rfl
  | cons e rest ih =>
    intro st
    cases e with
    | mk ev now =>
      by_cases h : st.finished = true
      · rw [List.cons_append]
        simp only [runEvents, if_pos h]
        exact (runEvents_finished aid t0 st h ys).symm
      · have h0 : st.finished = false := by simpa using h
        rw [List.cons_append]
        simp only [runEvents, h0, Bool.false_eq_true, if_false]
        exact ih _

theorem runEvents_single (aid : String) (t0 : Nat) (st : StreamState) (ev : StreamEvent)
    (now : Nat) (h : st.finished = false) :
    runEvents aid t0 st [(ev, now)] = applyEvent aid t0 st ev now := by
  simp [runEvents, h]

/-- Running a sequence of pure delta events over the state that `send` set
up: the accumulated text lands in the placeholder, the rest of the
conversation is untouched. -/
theorem runEvents_deltas (aid : String) (t0 : Nat) (base : List Msg)
    (hfresh : hasAssistantId base aid = false) :
    ∀ (ds : List (String × Nat)) (a0 : AssistantMsg) (stext : String),
      a0.id = some aid → a0.text = stext →
      runEvents aid t0
        { messages := base ++ [Msg.assistant a0], streamingText := stext,
          currentAssistantId := aid, finished := false }
        (ds.map fun p => (StreamEvent.delta p.1, p.2))
      = { messages :=
            base ++ [Msg.assistant { a0 with text := stext ++ joinStrs (ds.map Prod.fst) }],
          streamingText := stext ++ joinStrs (ds.map Prod.fst),
          currentAssistantId := aid, finished := false } := by
  intro ds
  induction ds with
  | nil =>
    intro a0 stext hid htext
    simp only [List.map_nil, joinStrs, runEvents, string_append_empty]
    subst htext
    rfl
  | cons p rest ih =>
    intro a0 stext hid htext
    cases p with
    | mk d tm =>
      simp only [List.map_cons, runEvents, Bool.false_eq_true, if_false]
      have happly :
          applyEvent aid t0
            { messages := base ++ [Msg.assistant a0], streamingText := stext,
              currentAssistantId := aid, finished := false }
            (StreamEvent.delta d) tm
          = { messages := base ++ [Msg.assistant { a0 with text := stext ++ d }],
              streamingText := stext ++ d,
              currentAssistantId := aid, finished := false } := by
        simp only [applyEvent, applyDelta]
        rw [updateById_append, updateById_not_present aid _ base hfresh]
        simp [updateById, hid]
      rw [happly,
        ih { a0 with text := stext ++ d } (stext ++ d) hid rfl]
      simp only [joinStrs]
      rw [string_append_assoc]

/-! ### Frame-splitting lemmas -/

theorem splitFrames_cons_cons (b1 b2 : Nat) (rest : List Nat) :
    splitFrames (b1 :: b2 :: rest) =
      if b1 = 10 ∧ b2 = 10 then
        ([] :: (splitFrames rest).1, (splitFrames rest).2)
      else
        match splitFrames (b2 :: rest) with
        | (f :: fs, r) => ((b1 :: f) :: fs, r)
        | ([], r) => ([], b1 :: r) := by
  rw [splitFrames]

theorem splitFrames_fst_nil : ∀ l : List Nat, (splitFrames l).1 = [] → (splitFrames l).2 = l
  | [] => fun _ => rfl
  | [_] => fun _ => rfl
  | b1 :: b2 :: rest => by
    rw [splitFrames_cons_cons]
    by_cases h : b1 = 10 ∧ b2 = 10
    · rw [if_pos h]
      intro hfst
      exact absurd hfst (by simp)
    · rw [if_neg h]
      rcases hsp : splitFrames (b2 :: rest) with ⟨fs, r⟩
      cases fs with
      | cons f fs2 =>
        intro hfst
        exact absurd hfst (by simp)
      | nil =>
        intro _
        have hr : r = b2 :: rest := by
          have h2 := splitFrames_fst_nil (b2 :: rest)
          rw [hsp] at h2
          simpa using h2 rfl
        simp [hr]

theorem splitFrames_snd_closed : ∀ l : List Nat, (splitFrames (splitFrames l).2).1 = []
  | [] => rfl
  | [_] => rfl
  | b1 :: b2 :: rest => by
    rw [splitFrames_cons_cons]
    by_cases h : b1 = 10 ∧ b2 = 10
    · rw [if_pos h]
      simpa using splitFrames_snd_closed rest
    · rw [if_neg h]
      rcases hsp : splitFrames (b2 :: rest) with ⟨fs, r⟩
      cases fs with
      | cons f fs2 =>
        have h2 := splitFrames_snd_closed (b2 :: rest)
        rw [hsp] at h2
        simpa using h2
      | nil =>
        have hr : r = b2 :: rest := by
          have h2 := splitFrames_fst_nil (b2 :: rest)
          rw [hsp] at h2
          simpa using h2 rfl
        subst hr
        show (splitFrames (b1 :: b2 :: rest)).1 = []
        rw [splitFrames_cons_cons, if_neg h, hsp]

theorem splitFrames_append : ∀ x y : List Nat,
    splitFrames (x ++ y)
      = ((splitFrames x).1 ++ (splitFrames ((splitFrames x).2 ++ y)).1,
         (splitFrames ((splitFrames x).2 ++ y)).2)
  | [], y => by simp [splitFrames]
  | [b], y => by
    show splitFrames (b :: y) = _
    simp [splitFrames]
  | b1 :: b2 :: rest, y => by
    by_cases h : b1 = 10 ∧ b2 = 10
    · have hx := splitFrames_cons_cons b1 b2 rest
      rw [if_pos h] at hx
      have hxy := splitFrames_cons_cons b1 b2 (rest ++ y)
      rw [if_pos h] at hxy
      rw [List.cons_append, List.cons_append, hxy, hx, splitFrames_append rest y]
      simp
    · have hx := splitFrames_cons_cons b1 b2 rest
      rw [if_neg h] at hx
      have hxy := splitFrames_cons_cons b1 b2 (rest ++ y)
      rw [if_neg h] at hxy
      rcases hsp : splitFrames (b2 :: rest) with ⟨fs, r⟩
      cases fs with
      | cons f fs2 =>
        rw [hsp] at hx
        have hrec := splitFrames_append (b2 :: rest) y
        rw [hsp] at hrec
        simp only [List.cons_append] at hrec ⊢
        rw [hxy, hrec, hx]
        simp
      | nil =>
        have hr : r = b2 :: rest := by
          have h2 := splitFrames_fst_nil (b2 :: rest)
          rw [hsp] at h2
          simpa using h2 rfl
        rw [hsp] at hx
        rw [hx]
        subst hr
        simp

theorem pump_join : ∀ (cs : List (List Nat)) (buf : List Nat),
    (splitFrames buf).1 = [] → pump buf cs = (splitFrames (buf ++ cs.flatten)).1
  | [], buf => by
    intro h
    show ([] : List (List Nat)) = _
    rw [List.flatten_nil, List.append_nil]
    exact h.symm
  | c :: cs, buf => by
    intro _
    show (splitFrames (buf ++ c)).1 ++ pump (splitFrames (buf ++ c)).2 cs = _
    rw [pump_join cs (splitFrames (buf ++ c)).2 (splitFrames_snd_closed (buf ++ c)),
      List.flatten_cons,
      show buf ++ (c ++ cs.flatten) = (buf ++ c) ++ cs.flatten from
        (List.append_assoc buf c _).symm,
      splitFrames_append (buf ++ c) cs.flatten]

theorem pump_single (s : List Nat) : pump [] [s] = (splitFrames s).1 := by
  show (splitFrames ([] ++ s)).1 ++ pump (splitFrames ([] ++ s)).2 [] = _
  rw [List.nil_append]
  show (splitFrames s).1 ++ [] = _
  rw [List.append_nil]

theorem join_singletons : ∀ s : List Nat, (s.map fun b => [b]).flatten = s
  | [] => rfl
  | b :: rest => by simp [join_singletons rest]

/-- C4: feeding a byte stream to the frame reader in one-byte chunks
produces exactly the same decoded StreamEvent sequence as feeding it as a
single chunk: the carry-over buffer (and per-complete-frame UTF-8
decoding) makes the decoded event sequence independent of chunk
boundaries. -/
theorem claim_C4_frame_splitting_invariance (s : List Nat) :
    streamEventsOf (s.map fun b => [b]) = streamEventsOf [s] := by
  unfold streamEventsOf
  rw [pump_join (s.map fun b => [b]) [] rfl, pump_join [s] [] rfl, join_singletons]
  simp

/-- C9: when the stream ends while the carry-over buffer still holds an
unterminated remainder, that remainder is discarded: it contributes no
event, and running the reducer over the decoded events gives the same
conversation as if the remainder had never arrived. -/
theorem claim_C9_unterminated_tail_discarded (s r : List Nat)
    (hterm : (splitFrames s).2 = []) (hnoterm : (splitFrames r).1 = [])
    (hne : r ≠ []) :
    streamEventsOf [s ++ r] = streamEventsOf [s] ∧
    ∀ (aid : String) (t0 tm : Nat) (st : StreamState),
      runEvents aid t0 st ((streamEventsOf [s ++ r]).map fun e => (e, tm))
        = runEvents aid t0 st ((streamEventsOf [s]).map fun e => (e, tm)) := by
  have key : streamEventsOf [s ++ r] = streamEventsOf [s] := by
    unfold streamEventsOf
    rw [pump_single, pump_single, splitFrames_append s r, hterm]
    simp [hnoterm]
  exact ⟨key, fun aid t0 tm st => by rw [key]⟩

/-! ### Lemmas about `send` runs -/

theorem sendStart_started (msgs0 : List Msg) (input0 txt aid : String)
    (htxt : jsTrim txt ≠ "") :
    sendStart { messages := msgs0, input := input0, isLoading := false } (some txt) aid
      = ({ messages := msgs0 ++ [Msg.user (jsTrim txt),
             Msg.assistant (placeholderMsg aid (jsTrim txt))],
           input := "", isLoading := true },
         some { assistantId := aid, promptText := jsTrim txt }) := by
  unfold sendStart
  rw [if_neg]
  · rfl
  · intro hc
    rcases hc with hc | hc
    · exact htxt hc
    · simp at hc

theorem applyResult_on_placeholder (base : List Msg) (a0 : AssistantMsg) (aid : String)
    (t0 t1 : Nat) (stext : String) (d : Json)
    (hfresh : hasAssistantId base aid = false) (hid : a0.id = some aid) :
    applyResult aid t0
      { messages := base ++ [Msg.assistant a0], streamingText := stext,
        currentAssistantId := aid, finished := false } d t1
    = { messages := base ++ [Msg.assistant { a0 with
            id := some ((dataStringField d "messageId").getD aid),
            text := (dataStringField d "reply").getD
              (if stext = "" then fallbackReply else stext),
            table := dataField d "table", chart := dataField d "chart",
            sql := dataField d "sql", latencyMs := some (t1 - t0),
            plan := dataField d "plan", followups := dataField d "followups",
            tablePreview := dataField d "tablePreview",
            sourceLabel := dataField d "sourceLabel",
            dataSource := dataField d "data_source", llmSource := dataField d "llmSource",
            llmSourceRaw := dataField d "llmSourceRaw",
            searchProvider := dataField d "search_provider" }],
        streamingText := stext,
        currentAssistantId := (dataStringField d "messageId").getD aid,
        finished := false } := by
  unfold applyResult
  simp only
  rw [updateById_append, updateById_not_present aid _ base hfresh]
  simp [updateById, hid]

theorem string_empty_append (s : String) : "" ++ s = s := by
  cases s with
  | mk data =>
    show String.mk ([] ++ data) = String.mk data
    rw [List.nil_append]

/-- The complete run of one streaming request whose event sequence is a
list of deltas followed by one result: the final conversation, accumulated
text, and current assistant id, symbolically. -/
theorem stream_run_full (msgs0 : List Msg) (input0 txt aid : String) (t0 t1 : Nat)
    (ds : List (String × Nat)) (d : Json)
    (hfresh : hasAssistantId msgs0 aid = false) (htxt : jsTrim txt ≠ "") :
    runEvents aid t0
      (initStream (sendStart { messages := msgs0, input := input0, isLoading := false }
          (some txt) aid).1.messages aid)
      ((ds.map fun p => (StreamEvent.delta p.1, p.2)) ++ [(StreamEvent.result d, t1)])
    = { messages := (msgs0 ++ [Msg.user (jsTrim txt)]) ++
          [Msg.assistant { placeholderMsg aid (jsTrim txt) with
            id := some ((dataStringField d "messageId").getD aid),
            text := (dataStringField d "reply").getD
              (if joinStrs (ds.map Prod.fst) = "" then fallbackReply
               else joinStrs (ds.map Prod.fst)),
            table := dataField d "table", chart := dataField d "chart",
            sql := dataField d "sql", latencyMs := some (t1 - t0),
            plan := dataField d "plan", followups := dataField d "followups",
            tablePreview := dataField d "tablePreview",
            sourceLabel := dataField d "sourceLabel",
            dataSource := dataField d "data_source", llmSource := dataField d "llmSource",
            llmSourceRaw := dataField d "llmSourceRaw",
            searchProvider := dataField d "search_provider" }],
        streamingText := joinStrs (ds.map Prod.fst),
        currentAssistantId := (dataStringField d "messageId").getD aid,
        finished := false } := by
  rw [sendStart_started msgs0 input0 txt aid htxt]
  have hb : hasAssistantId (msgs0 ++ [Msg.user (jsTrim txt)]) aid = false := by
    rw [hasAssistantId_append, hfresh]
    rfl
  have hinit : initStream (msgs0 ++ [Msg.user (jsTrim txt),
        Msg.assistant (placeholderMsg aid (jsTrim txt))]) aid
      = { messages := (msgs0 ++ [Msg.user (jsTrim txt)]) ++
            [Msg.assistant (placeholderMsg aid (jsTrim txt))],
          streamingText := "", currentAssistantId := aid, finished := false } := by
    unfold initStream
    rw [List.append_assoc]
    rfl
  rw [hinit, runEvents_append,
    runEvents_deltas aid t0 (msgs0 ++ [Msg.user (jsTrim txt)]) hb ds
      (placeholderMsg aid (jsTrim txt)) "" rfl rfl,
    runEvents_single _ _ _ _ _ rfl]
  show applyResult _ _ _ _ _ = _
  rw [applyResult_on_placeholder (msgs0 ++ [Msg.user (jsTrim txt)])
    { placeholderMsg aid (jsTrim txt) with text := "" ++ joinStrs (ds.map Prod.fst) }
    aid t0 t1 ("" ++ joinStrs (ds.map Prod.fst)) d hb rfl]
  rw [string_empty_append]

/-- C1 (Delta reassembly): for a streaming request started by `send` on a
non-blank input, delivering any sequence of Delta events and no Result
leaves the conversation as the prior messages, the user message, and the
open AssistantMessage whose text is exactly the concatenation of the delta
texts. -/
theorem claim_C1_delta_reassembly (msgs0 : List Msg) (input0 txt aid : String) (t0 : Nat)
    (ds : List (String × Nat))
    (hfresh : hasAssistantId msgs0 aid = false)
    (htxt : jsTrim txt ≠ "") :
    (runEvents aid t0
        (initStream (sendStart { messages := msgs0, input := input0, isLoading := false }
            (some txt) aid).1.messages aid)
        (ds.map fun p => (StreamEvent.delta p.1, p.2))).messages
      = msgs0 ++ [Msg.user (jsTrim txt),
          Msg.assistant { placeholderMsg aid (jsTrim txt) with
            text := joinStrs (ds.map Prod.fst) }] ∧
    openText (runEvents aid t0
        (initStream (sendStart { messages := msgs0, input := input0, isLoading := false }
            (some txt) aid).1.messages aid)
        (ds.map fun p => (StreamEvent.delta p.1, p.2))).messages
      = some (joinStrs (ds.map Prod.fst)) := by
  rw [sendStart_started msgs0 input0 txt aid htxt]
  have hb : hasAssistantId (msgs0 ++ [Msg.user (jsTrim txt)]) aid = false := by
    rw [hasAssistantId_append, hfresh]
    rfl
  have hinit : initStream (msgs0 ++ [Msg.user (jsTrim txt),
        Msg.assistant (placeholderMsg aid (jsTrim txt))]) aid
      = { messages := (msgs0 ++ [Msg.user (jsTrim txt)]) ++
            [Msg.assistant (placeholderMsg aid (jsTrim txt))],
          streamingText := "", currentAssistantId := aid, finished := false } := by
    unfold initStream
    rw [List.append_assoc]
    rfl
  rw [hinit,
    runEvents_deltas aid t0 (msgs0 ++ [Msg.user (jsTrim txt)]) hb ds
      (placeholderMsg aid (jsTrim txt)) "" rfl rfl]
  rw [string_empty_append]
  constructor
  · show (msgs0 ++ [Msg.user (jsTrim txt)]) ++ _ = _
    rw [List.append_assoc]
    rfl
  · exact openText_concat _ _

/-- Witness for C1 at a concrete run: two deltas reassemble to their
concatenation. -/
theorem claim_C1_delta_reassembly_witness :
    hasAssistantId [] "loc" = false ∧ jsTrim "hi" ≠ "" ∧
    ((runEvents "loc" 0
        (initStream (sendStart { messages := [], input := "", isLoading := false }
            (some "hi") "loc").1.messages "loc")
        ([("AAPL", 1), (" is $190", 2)].map fun p => (StreamEvent.delta p.1, p.2))).messages
      = [] ++ [Msg.user (jsTrim "hi"),
          Msg.assistant { placeholderMsg "loc" (jsTrim "hi") with
            text := joinStrs ([("AAPL", 1), (" is $190", 2)].map Prod.fst) }] ∧
    openText (runEvents "loc" 0
        (initStream (sendStart { messages := [], input := "", isLoading := false }
            (some "hi") "loc").1.messages "loc")
        ([("AAPL", 1), (" is $190", 2)].map fun p => (StreamEvent.delta p.1, p.2))).messages
      = some (joinStrs ([("AAPL", 1), (" is $190", 2)].map Prod.fst))) :=
  ⟨by decide, by decide,
    claim_C1_delta_reassembly [] "" "hi" "loc" 0 [("AAPL", 1), (" is $190", 2)]
      (by decide) (by decide)⟩

/-- C2 (Result precedence, amended): when a Result arrives after deltas
accumulating to S, a non-empty string `reply` R wins (the final text is R,
not S); when the payload supplies no usable reply, the final text falls
back to S when S is non-empty, and to the fixed fallback sentence when S
is empty. -/
theorem claim_C2_result_precedence (msgs0 : List Msg) (input0 txt aid : String)
    (t0 t1 : Nat) (ds : List (String × Nat)) (d : Json)
    (hfresh : hasAssistantId msgs0 aid = false) (htxt : jsTrim txt ≠ "") :
    (∀ r, dataStringField d "reply" = some r →
      openText (runEvents aid t0
          (initStream (sendStart { messages := msgs0, input := input0, isLoading := false }
              (some txt) aid).1.messages aid)
          ((ds.map fun p => (StreamEvent.delta p.1, p.2))
            ++ [(StreamEvent.result d, t1)])).messages
        = some r) ∧
    (dataStringField d "reply" = none →
      openText (runEvents aid t0
          (initStream (sendStart { messages := msgs0, input := input0, isLoading := false }
              (some txt) aid).1.messages aid)
          ((ds.map fun p => (StreamEvent.delta p.1, p.2))
            ++ [(StreamEvent.result d, t1)])).messages
        = some (if joinStrs (ds.map Prod.fst) = "" then fallbackReply
            else joinStrs (ds.map Prod.fst))) := by
  rw [stream_run_full msgs0 input0 txt aid t0 t1 ds d hfresh htxt]
  constructor
  · intro r hr
    rw [show openText _ = _ from openText_concat (msgs0 ++ [Msg.user (jsTrim txt)]) _, hr]
    rfl
  · intro hr
    rw [show openText _ = _ from openText_concat (msgs0 ++ [Msg.user (jsTrim txt)]) _, hr]
    rfl

/-- Witness for C2 at the end-to-end scenario: deltas "AAPL" and
" is $190" accumulate, then the result supplies the reply, which wins. -/
theorem claim_C2_result_precedence_witness :
    hasAssistantId [] "loc" = false ∧ jsTrim "AAPL price?" ≠ "" ∧
    dataStringField (Json.obj [("reply", Json.str "AAPL is $190.12")]) "reply"
      = some "AAPL is $190.12" ∧
    openText (runEvents "loc" 0
        (initStream (sendStart { messages := [], input := "", isLoading := false }
            (some "AAPL price?") "loc").1.messages "loc")
        (([("AAPL", 1), (" is $190", 2)].map fun p => (StreamEvent.delta p.1, p.2))
          ++ [(StreamEvent.result (Json.obj [("reply", Json.str "AAPL is $190.12")]), 3)])).messages
      = some "AAPL is $190.12" :=
  ⟨by decide, by decide, by decide,
    (claim_C2_result_precedence [] "" "AAPL price?" "loc" 0 3
        [("AAPL", 1), (" is $190", 2)] (Json.obj [("reply", Json.str "AAPL is $190.12")])
        (by decide) (by decide)).1
      "AAPL is $190.12" (by decide)⟩

/-- Counterexample to C2 as stated: with a single empty delta the
accumulated text S is the empty string; a Result supplying no reply then
produces the fixed fallback sentence, not S. -/
theorem claim_C2_counterexample :
    dataStringField (Json.obj []) "reply" = none ∧
    openText (runEvents "loc" 0
        (initStream (sendStart { messages := [], input := "", isLoading := false }
            (some "q") "loc").1.messages "loc")
        [(StreamEvent.delta "", 1), (StreamEvent.result (Json.obj []), 2)]).messages
      = some fallbackReply ∧
    openText (runEvents "loc" 0
        (initStream (sendStart { messages := [], input := "", isLoading := false }
            (some "q") "loc").1.messages "loc")
        [(StreamEvent.delta "", 1), (StreamEvent.result (Json.obj []), 2)]).messages
      ≠ some (joinStrs [""]) := by
  refine ⟨by decide, by decide, ?_⟩
  decide

/-- C3 (Rekey on Result, amended): when the Result payload carries a
non-empty string `messageId`, the open assistant message ends with that
server id; when the payload carries no usable `messageId` (absent or the
empty string), the local placeholder id is kept. -/
theorem claim_C3_rekey_on_result (msgs0 : List Msg) (input0 txt aid : String)
    (t0 t1 : Nat) (ds : List (String × Nat)) (d : Json)
    (hfresh : hasAssistantId msgs0 aid = false) (htxt : jsTrim txt ≠ "") :
    (∀ m, dataStringField d "messageId" = some m →
      openId (runEvents aid t0
          (initStream (sendStart { messages := msgs0, input := input0, isLoading := false }
              (some txt) aid).1.messages aid)
          ((ds.map fun p => (StreamEvent.delta p.1, p.2))
            ++ [(StreamEvent.result d, t1)])).messages
        = some m) ∧
    (dataStringField d "messageId" = none →
      openId (runEvents aid t0
          (initStream (sendStart { messages := msgs0, input := input0, isLoading := false }
              (some txt) aid).1.messages aid)
          ((ds.map fun p => (StreamEvent.delta p.1, p.2))
            ++ [(StreamEvent.result d, t1)])).messages
        = some aid) := by
  rw [stream_run_full msgs0 input0 txt aid t0 t1 ds d hfresh htxt]
  constructor
  · intro m hm
    rw [show openId _ = _ from openId_concat (msgs0 ++ [Msg.user (jsTrim txt)]) _, hm]
    rfl
  · intro hm
    rw [show openId _ = _ from openId_concat (msgs0 ++ [Msg.user (jsTrim txt)]) _, hm]
    rfl

/-- Witness for C3 at the end-to-end scenario: the placeholder created
with the local id ends up re-keyed to the server-assigned id "m1". -/
theorem claim_C3_rekey_on_result_witness :
    hasAssistantId [] "loc" = false ∧ jsTrim "AAPL price?" ≠ "" ∧
    dataStringField (Json.obj [("messageId", Json.str "m1"),
        ("reply", Json.str "AAPL is $190.12")]) "messageId" = some "m1" ∧
    openId (runEvents "loc" 0
        (initStream (sendStart { messages := [], input := "", isLoading := false }
            (some "AAPL price?") "loc").1.messages "loc")
        (([("AAPL", 1), (" is $190", 2)].map fun p => (StreamEvent.delta p.1, p.2))
          ++ [(StreamEvent.result (Json.obj [("messageId", Json.str "m1"),
              ("reply", Json.str "AAPL is $190.12")]), 3)])).messages
      = some "m1" :=
  ⟨by decide, by decide, by decide,
    (claim_C3_rekey_on_result [] "" "AAPL price?" "loc" 0 3
        [("AAPL", 1), (" is $190", 2)]
        (Json.obj [("messageId", Json.str "m1"), ("reply", Json.str "AAPL is $190.12")])
        (by decide) (by decide)).1
      "m1" (by decide)⟩

/-- Counterexample to C3 as stated: a Result payload that does contain a
`messageId` field, holding the empty string, does not re-key the message
to it — the falsy empty id is ignored and the local placeholder id is
kept. -/
theorem claim_C3_counterexample :
    jlookup (Json.obj [("messageId", Json.str "")]) "messageId" = some (Json.str "") ∧
    openId (runEvents "loc" 0
        (initStream (sendStart { messages := [], input := "", isLoading := false }
            (some "q") "loc").1.messages "loc")
        [(StreamEvent.delta "AAPL", 1),
          (StreamEvent.result (Json.obj [("messageId", Json.str "")]), 2)]).messages
      = some "loc" ∧
    openId (runEvents "loc" 0
        (initStream (sendStart { messages := [], input := "", isLoading := false }
            (some "q") "loc").1.messages "loc")
        [(StreamEvent.delta "AAPL", 1),
          (StreamEvent.result (Json.obj [("messageId", Json.str "")]), 2)]).messages
      ≠ some "" := by
  refine ⟨rfl, by decide, ?_⟩
  decide

/-- C5 (Skip-and-continue): any frame the decoder cannot turn into an
event — no `data:` line, empty payload, malformed JSON, or an unknown
discriminant — is skipped without affecting the events decoded from the
surrounding frames, and hence without affecting the reduced conversation;
in particular an invalid frame between two valid delta frames does not
interrupt the accumulation. -/
theorem claim_C5_skip_and_continue (f : String) (xs ys : List String)
    (hf : decodeFrame f = none) :
    frameEventsStr (xs ++ f :: ys) = frameEventsStr (xs ++ ys) ∧
    ∀ (aid : String) (t0 tm : Nat) (st : StreamState),
      runEvents aid t0 st ((frameEventsStr (xs ++ f :: ys)).map fun e => (e, tm))
        = runEvents aid t0 st ((frameEventsStr (xs ++ ys)).map fun e => (e, tm)) := by
  have key : frameEventsStr (xs ++ f :: ys) = frameEventsStr (xs ++ ys) := by
    induction xs with
    | nil =>
      show eventsRun (List.map decodeFrame (f :: ys)) = _
      rw [List.map_cons, hf]
      rfl
    | cons x rest ih =>
      simp only [frameEventsStr] at ih
      show eventsRun (List.map decodeFrame (x :: (rest ++ f :: ys)))
        = eventsRun (List.map decodeFrame (x :: (rest ++ ys)))
      rw [List.map_cons, List.map_cons]
      cases hd : decodeFrame x with
      | none =>
        show eventsRun (List.map decodeFrame (rest ++ f :: ys)) = _
        exact ih
      | some e =>
        cases e with
        | delta t =>
          show StreamEvent.delta t :: eventsRun (List.map decodeFrame (rest ++ f :: ys))
            = StreamEvent.delta t :: eventsRun (List.map decodeFrame (rest ++ ys))
          rw [ih]
        | result dd =>
          show StreamEvent.result dd :: eventsRun (List.map decodeFrame (rest ++ f :: ys))
            = StreamEvent.result dd :: eventsRun (List.map decodeFrame (rest ++ ys))
          rw [ih]
        | errorEv er =>
          show StreamEvent.errorEv er :: eventsRun (List.map decodeFrame (rest ++ f :: ys))
            = StreamEvent.errorEv er :: eventsRun (List.map decodeFrame (rest ++ ys))
          rw [ih]
        | endEv => rfl
  exact ⟨key, fun aid t0 tm st => by rw [key]⟩

/-- Witness for C5: a frame with broken JSON between two valid delta
frames decodes to nothing and the event sequence is as if it were
absent. -/
theorem claim_C5_skip_and_continue_witness :
    decodeFrame "data: \x7bbroken" = none ∧
    frameEventsStr (["data: \x7b\"type\":\"delta\",\"delta\":\"AA\"\x7d"]
        ++ "data: \x7bbroken" :: ["data: \x7b\"type\":\"delta\",\"delta\":\"BB\"\x7d"])
      = frameEventsStr (["data: \x7b\"type\":\"delta\",\"delta\":\"AA\"\x7d"]
        ++ ["data: \x7b\"type\":\"delta\",\"delta\":\"BB\"\x7d"]) :=
  ⟨rfl,
    (claim_C5_skip_and_continue "data: \x7bbroken"
        ["data: \x7b\"type\":\"delta\",\"delta\":\"AA\"\x7d"]
        ["data: \x7b\"type\":\"delta\",\"delta\":\"BB\"\x7d"] rfl).1⟩

/-- C6 (amended): applying the same Result twice is a no-op on the state
whenever the Result carries a (non-empty) `messageId` different from the
local placeholder id: the first application re-keys the open message, so
the second application matches no entry and changes nothing.  (Without
such a re-keying `messageId` the second application repeats the overwrite
and refreshes `latencyMs` to the later time; see the counterexample.) -/
theorem claim_C6_result_idempotent_when_rekeyed (base : List Msg) (a0 : AssistantMsg)
    (aid m : String) (d : Json) (t0 t1 t2 : Nat) (stext : String)
    (hfresh : hasAssistantId base aid = false) (hid : a0.id = some aid)
    (hm : dataStringField d "messageId" = some m) (hne2 : m ≠ aid) :
    runEvents aid t0
      { messages := base ++ [Msg.assistant a0], streamingText := stext,
        currentAssistantId := aid, finished := false }
      [(StreamEvent.result d, t1), (StreamEvent.result d, t2)]
    = runEvents aid t0
      { messages := base ++ [Msg.assistant a0], streamingText := stext,
        currentAssistantId := aid, finished := false }
      [(StreamEvent.result d, t1)] := by
  have h1 : runEvents aid t0
      { messages := base ++ [Msg.assistant a0], streamingText := stext,
        currentAssistantId := aid, finished := false }
      [(StreamEvent.result d, t1)]
      = applyResult aid t0
        { messages := base ++ [Msg.assistant a0], streamingText := stext,
          currentAssistantId := aid, finished := false } d t1 :=
    runEvents_single _ _ _ _ _ rfl
  rw [show ([(StreamEvent.result d, t1), (StreamEvent.result d, t2)]
        : List (StreamEvent × Nat))
      = [(StreamEvent.result d, t1)] ++ [(StreamEvent.result d, t2)] from rfl,
    runEvents_append, h1,
    applyResult_on_placeholder base a0 aid t0 t1 stext d hfresh hid,
    runEvents_single _ _ _ _ _ rfl]
  show applyResult _ _ _ d t2 = _
  unfold applyResult
  simp only [hm, Option.getD_some]
  rw [updateById_append, updateById_not_present aid _ base hfresh]
  simp [updateById, hm, hne2]

/-- Witness for C6 (amended) at a concrete run: with server id "m1" the
second application of the same Result leaves the state identical. -/
theorem claim_C6_result_idempotent_when_rekeyed_witness :
    hasAssistantId [] "loc" = false ∧
    (placeholderMsg "loc" "q").id = some "loc" ∧
    dataStringField (Json.obj [("messageId", Json.str "m1")]) "messageId" = some "m1" ∧
    "m1" ≠ "loc" ∧
    runEvents "loc" 0
      { messages := [] ++ [Msg.assistant (placeholderMsg "loc" "q")], streamingText := "hi",
        currentAssistantId := "loc", finished := false }
      [(StreamEvent.result (Json.obj [("messageId", Json.str "m1")]), 100),
        (StreamEvent.result (Json.obj [("messageId", Json.str "m1")]), 200)]
    = runEvents "loc" 0
      { messages := [] ++ [Msg.assistant (placeholderMsg "loc" "q")], streamingText := "hi",
        currentAssistantId := "loc", finished := false }
      [(StreamEvent.result (Json.obj [("messageId", Json.str "m1")]), 100)] :=
  ⟨by decide, by decide, by decide, by decide,
    claim_C6_result_idempotent_when_rekeyed [] (placeholderMsg "loc" "q") "loc" "m1"
      (Json.obj [("messageId", Json.str "m1")]) 0 100 200 "hi"
      (by decide) (by decide) (by decide) (by decide)⟩

/-- Counterexample to C6 as stated: when the Result carries no messageId,
the open message keeps the local id, so a second application of the same
Result matches it again and overwrites `latencyMs` with the later elapsed
time — the conversation after the second application differs from the one
after the first (latency 200 vs 100). -/
theorem claim_C6_counterexample :
    openLatency (runEvents "loc" 0
        { messages := [Msg.assistant (placeholderMsg "loc" "q")], streamingText := "hi",
          currentAssistantId := "loc", finished := false }
        [(StreamEvent.result (Json.obj []), 100),
          (StreamEvent.result (Json.obj []), 200)]).messages = some 200 ∧
    openLatency (runEvents "loc" 0
        { messages := [Msg.assistant (placeholderMsg "loc" "q")], streamingText := "hi",
          currentAssistantId := "loc", finished := false }
        [(StreamEvent.result (Json.obj []), 100)]).messages = some 100 ∧
    (runEvents "loc" 0
        { messages := [Msg.assistant (placeholderMsg "loc" "q")], streamingText := "hi",
          currentAssistantId := "loc", finished := false }
        [(StreamEvent.result (Json.obj []), 100),
          (StreamEvent.result (Json.obj []), 200)]).messages
      ≠ (runEvents "loc" 0
        { messages := [Msg.assistant (placeholderMsg "loc" "q")], streamingText := "hi",
          currentAssistantId := "loc", finished := false }
        [(StreamEvent.result (Json.obj []), 100)]).messages :=
  ⟨by decide, by decide,
    fun h => absurd (congrArg openLatency h) (by decide)⟩

/-- C7 (amended): when the feedback POST fails, the failure is only
reported and the conversation is left entirely unchanged — the feedback
field keeps its previous value; the submitted rating is recorded only by a
successful POST. -/
theorem claim_C7_feedback_failure_keeps_state (msg : AssistantMsg) (rating : Feedback)
    (messages : List Msg) :
    submitFeedback false msg rating messages = messages := by
  cases hmid : msg.id with
  | none => simp [submitFeedback, hmid]
  | some mid => simp [submitFeedback, hmid]

/-- Counterexample to C7 as stated: after a failed submit of an `up`
rating on a message with no prior rating, the message's feedback field is
still empty, not the submitted rating. -/
theorem claim_C7_counterexample :
    feedbackOf (submitFeedback false { id := some "m1", text := "ans" } Feedback.up
        [Msg.assistant { id := some "m1", text := "ans" }]) "m1" = none ∧
    feedbackOf (submitFeedback false { id := some "m1", text := "ans" } Feedback.up
        [Msg.assistant { id := some "m1", text := "ans" }]) "m1" ≠ some Feedback.up :=
  ⟨by decide, by decide⟩

/-- C8 (amended): a `send` issued while a stream is open (`isLoading`) is
rejected by the entry guard: the state is unchanged and no new network
request starts — a single active stream is maintained by rejection, not by
cancelling the prior stream. -/
theorem claim_C8_send_while_streaming_rejected (st : ChatState)
    (messageOverride : Option String) (newId : String) (hload : st.isLoading = true) :
    sendStart st messageOverride newId = (st, none) := by
  unfold sendStart
  rw [if_pos (Or.inr (by rw [hload]))]

/-- Witness for C8 (amended): a concrete send during streaming is a
no-op. -/
theorem claim_C8_send_while_streaming_rejected_witness :
    ({ messages := [Msg.user "prev"], input := "", isLoading := true } : ChatState).isLoading
      = true ∧
    sendStart { messages := [Msg.user "prev"], input := "", isLoading := true }
        (some "next") "id2"
      = ({ messages := [Msg.user "prev"], input := "", isLoading := true }, none) :=
  ⟨rfl, claim_C8_send_while_streaming_rejected _ _ _ rfl⟩

/-- Counterexample to C8 as stated: with a stream open, `send("hello")`
does not cancel the prior stream and start a new request — it does nothing
at all (no state change, no request issued), because the guard
`if (!text || isLoading) return` returns first. -/
theorem claim_C8_counterexample :
    sendStart { messages := [], input := "", isLoading := true } (some "hello") "newid"
      = ({ messages := [], input := "", isLoading := true }, none) := rfl

/-- C10: a `send` whose input is empty or consists only of whitespace is a
complete no-op: the conversation is unchanged, no user message and no
placeholder are appended, and no network request is issued. -/
theorem claim_C10_blank_send_noop (st : ChatState) (txt : String) (newId : String)
    (hws : txt.data.all isJsWs = true) :
    sendStart st (some txt) newId = (st, none) := by
  have h : jsTrim txt = "" := by
    unfold jsTrim
    have hd : txt.data.dropWhile isJsWs = [] :=
      List.dropWhile_eq_nil_iff.mpr (fun x hx => List.all_eq_true.mp hws x hx)
    rw [hd]
    rfl
  unfold sendStart
  simp only [Option.getD_some]
  rw [if_pos (Or.inl h)]

/-- Witness for C10: sending two spaces changes nothing. -/
theorem claim_C10_blank_send_noop_witness :
    ("  ".data.all isJsWs = true) ∧
    sendStart { messages := [Msg.user "a"], input := "x", isLoading := false }
        (some "  ") "id9"
      = ({ messages := [Msg.user "a"], input := "x", isLoading := false }, none) :=
  ⟨by decide, claim_C10_blank_send_noop _ _ _ (by decide)⟩

/-- Witness for C9: a complete delta frame followed by an unterminated
fragment decodes to the same events as the complete frame alone. -/
theorem claim_C9_unterminated_tail_discarded_witness :
    (splitFrames (asciiBytes "data: \x7b\"type\":\"delta\",\"delta\":\"AA\"\x7d\n\n")).2
      = [] ∧
    (splitFrames (asciiBytes "data: \x7b\"ty")).1 = [] ∧
    asciiBytes "data: \x7b\"ty" ≠ [] ∧
    streamEventsOf [asciiBytes "data: \x7b\"type\":\"delta\",\"delta\":\"AA\"\x7d\n\n"
        ++ asciiBytes "data: \x7b\"ty"]
      = streamEventsOf [asciiBytes "data: \x7b\"type\":\"delta\",\"delta\":\"AA\"\x7d\n\n"] :=
  ⟨by decide, by decide, by decide,
    (claim_C9_unterminated_tail_discarded
        (asciiBytes "data: \x7b\"type\":\"delta\",\"delta\":\"AA\"\x7d\n\n")
        (asciiBytes "data: \x7b\"ty") (by decide) (by decide) (by decide)).1⟩

end SmartWealth
